/-
  A shallow embedding in Lean 4 of the compiler front end in src/pon.cpp
  (tokenizer, precedence-climbing parser, and IR lowering of the "pon"
  language), together with theorems settling the specification's claims.

  Modelling choices, stated once here:

  * The stdin character stream is a `List Char`; `getchar` pops the head and
    returns `none` for EOF.  The C `static int LastChar = ' '` is an explicit
    `Option Char` argument threaded through the tokenizer (`none` = EOF).
  * Numeric literals keep their source text (`NumStr`): the C code converts
    with `strtod`, which is floating point and outside the embedding; every
    claim only needs the literal's identity, which the text preserves.
  * The C loops (`while (isspace ...)`, comment skipping, the
    precedence-climbing loop, the interactive driver) become recursion;
    where the recursion is not structural on the input a fuel parameter is
    added, and every claim is stated either for all sufficient fuel or at a
    concrete fuel large enough for its input (each loop iteration consumes
    at least one token/character, so `length + 1` always suffices).
  * `std::map` becomes an association list with overwrite-on-insert
    (`mapInsert`/`mapLookup`).  `NamedValues[Name]` on an absent key in C++
    inserts a null mapping as a side effect; a null mapping and an absent
    one are observationally identical here (both make the lookup fail and
    both are overwritten by the next assignment), so lookup is modelled as
    pure.
  * The LLVM `Module` is a list of `FunctionIR` records (name, arity,
    `hasBody` = "the function has at least one basic block", i.e. C++
    `!F->empty()`).  `Module::getFunction` never finds anonymous (empty
    named) functions, matching LLVM's symbol table.  The
    `Function::Create`-then-rename-then-erase dance of
    `PrototypeAST::Codegen` is modelled by its net effect: fresh append when
    the name is free, reuse of the existing entry otherwise.
  * The `IRBuilder` is an event log: `emit` appends an instruction and
    returns a `Value.instr` handle numbered by position.  Error reporting
    (`fprintf(stderr, ...)` + returning null) becomes an `errors` log in the
    state plus a `none` result; each error site records the exact C string,
    classified by the error taxonomy (UndefinedSymbol / ArityMismatch /
    RedefinitionConflict / InvalidOperator).
-/
import Mathlib

namespace Pon

/-! ## Character classification (C `ctype.h`, ASCII) -/

def isspaceC (c : Char) : Bool :=
  c == ' ' || c == '\t' || c == '\n' || c == '\x0b' || c == '\x0c' || c == '\r'

def isalphaC (c : Char) : Bool :=
  (decide (65 ≤ c.toNat) && decide (c.toNat ≤ 90)) ||
  (decide (97 ≤ c.toNat) && decide (c.toNat ≤ 122))

def isdigitC (c : Char) : Bool :=
  decide (48 ≤ c.toNat) && decide (c.toNat ≤ 57)

def isalnumC (c : Char) : Bool :=
  isalphaC c || isdigitC c

/-! ## Tokenizer (src/pon.cpp, `gettok`, lines 23-64) -/

/-- Token kinds of `enum Token` plus single-character punctuation
(`int ThisChar`); identifier and number tokens carry their payload
(`IdentifierStr`, the numeral text `NumStr`). -/
inductive Tok where
  | tok_eof : Tok
  | tok_def : Tok
  | tok_extern : Tok
  | tok_identifier (IdentifierStr : String) : Tok
  | tok_number (NumStr : String) : Tok
  | tok_char (c : Char) : Tok
deriving DecidableEq, Repr

/-- `getchar()`: pop the next character, `none` at end of input. -/
def getchar (input : List Char) : Option Char × List Char :=
  match input with
  | [] => (none, [])
  | c :: rest => (some c, rest)

/-- The `while (isspace(LastChar)) LastChar = getchar();` loop. -/
def skipSpaces (lc : Option Char) : List Char → Option Char × List Char
  | [] =>
    match lc with
    | none => (none, [])
    | some c => if isspaceC c then (none, []) else (some c, [])
  | d :: rest =>
    match lc with
    | none => (none, d :: rest)
    | some c => if isspaceC c then skipSpaces (some d) rest else (some c, d :: rest)

/-- The shared shape of the identifier loop
(`while (isalnum((LastChar = getchar()))) IdentifierStr += LastChar;`) and of
the numeral do-while loop: keep fetching while `p` holds, accumulating into
`acc`; the first failing character (or EOF) becomes the new `LastChar`. -/
def lexWhile (p : Char → Bool) (acc : String) (input : List Char) :
    String × Option Char × List Char :=
  match input with
  | [] => (acc, none, [])
  | c :: rest => if p c then lexWhile p (acc.push c) rest else (acc, some c, rest)

/-- The comment loop: `do LastChar = getchar(); while (LastChar != EOF &&
LastChar != '\n' && LastChar != '\r');`. -/
def skipComment (input : List Char) : Option Char × List Char :=
  match input with
  | [] => (none, [])
  | c :: rest => if c == '\n' || c == '\r' then (some c, rest) else skipComment rest

/-- `gettok()`, lines 23-64.  The fuel only pays for the tail call that
restarts `gettok` after a line comment; `input.length + 1` always suffices
since the comment loop consumes at least the characters before the newline.
The C function checks EOF after the comment branch; since EOF is neither
alphabetic, a digit, `.`, nor `#`, matching `none` first is equivalent. -/
def gettok : Nat → Option Char → List Char → Tok × Option Char × List Char
  | 0, lc, input => (Tok.tok_eof, lc, input)
  | fuel + 1, lc, input =>
    match skipSpaces lc input with
    | (none, input1) => (Tok.tok_eof, none, input1)
    | (some c, input1) =>
      if isalphaC c then
        match lexWhile isalnumC (String.singleton c) input1 with
        | (s, lc2, input2) =>
          if s = "def" then (Tok.tok_def, lc2, input2)
          else if s = "extern" then (Tok.tok_extern, lc2, input2)
          else (Tok.tok_identifier s, lc2, input2)
      else if isdigitC c || c == '.' then
        match lexWhile (fun d => isdigitC d || d == '.') (String.singleton c) input1 with
        | (s, lc2, input2) => (Tok.tok_number s, lc2, input2)
      else if c == '#' then
        match skipComment input1 with
        | (none, input2) => (Tok.tok_eof, none, input2)
        | (some d, input2) => gettok fuel (some d) input2
      else
        match getchar input1 with
        | (lc2, input2) => (Tok.tok_char c, lc2, input2)

/-- Drain the stream: the driver's repeated `getNextToken()` calls, ending
with (and including) the EOF sentinel.  The parser below consumes this list
left to right, which is exactly the order the on-demand C tokenizer hands
tokens to the parser. -/
def tokenizeAux : Nat → Option Char → List Char → List Tok
  | 0, _, _ => []
  | fuel + 1, lc, input =>
    match gettok (input.length + 1) lc input with
    | (Tok.tok_eof, _, _) => [Tok.tok_eof]
    | (t, lc1, input1) => t :: tokenizeAux fuel lc1 input1

/-- Tokenize a whole source string, starting from the C initial state
`LastChar = ' '`. -/
def tokenize (s : String) : List Tok :=
  tokenizeAux (s.length + 2) (some ' ') s.toList

/-! ## AST (src/pon.cpp, lines 66-122) -/

/-- The expression node classes `NumberExprAST`, `VariableExprAST`,
`BinaryExprAST`, `CallExprAST` as one closed variant.  `NumberExprAST`
keeps the numeral text (see the header comment). -/
inductive ExprAST where
  | NumberExprAST (Val : String) : ExprAST
  | VariableExprAST (Name : String) : ExprAST
  | BinaryExprAST (Op : Char) (LHS RHS : ExprAST) : ExprAST
  | CallExprAST (Callee : String) (Args : List ExprAST) : ExprAST
deriving Repr

structure PrototypeAST where
  Name : String
  Args : List String
deriving Repr

structure FunctionAST where
  Proto : PrototypeAST
  Body : ExprAST
deriving Repr

/-! ## Parser (src/pon.cpp, lines 124-275)

The global `CurTok` plus `getNextToken()` pair becomes an explicit token
list argument whose head is the current token; consuming a token is
dropping the head.  Every parse function returns `none` where the C
function reports an error and returns null. -/

/-- The contents of `BinopPrecedence` after `main` has run lines 431-434,
including `std::map::operator[]`'s default of `0` for absent keys. -/
def BinopPrecedence (c : Char) : Int :=
  if c = '<' then 10
  else if c = '+' then 20
  else if c = '-' then 20
  else if c = '*' then 40
  else 0

/-- `GetTokPrecedence()`, lines 131-138: non-ASCII `CurTok` values (all the
negative `tok_*` kinds, including EOF) give `-1`; a punctuation character is
looked up, with non-positive precedence mapped to `-1`. -/
def GetTokPrecedence (toks : List Tok) : Int :=
  match toks with
  | Tok.tok_char c :: _ =>
    if 127 < c.toNat then -1
    else if BinopPrecedence c ≤ 0 then -1
    else BinopPrecedence c
  | _ => -1

mutual

/-- `ParseExpression()`, lines 226-231. -/
def ParseExpression : Nat → List Tok → Option (ExprAST × List Tok)
  | 0, _ => none
  | fuel + 1, toks =>
    match ParsePrimary fuel toks with
    | none => none
    | some (lhs, rest) => ParseBinOpRHS fuel 0 lhs rest

/-- `ParsePrimary()`, lines 193-200. -/
def ParsePrimary : Nat → List Tok → Option (ExprAST × List Tok)
  | 0, _ => none
  | fuel + 1, toks =>
    match toks with
    | Tok.tok_identifier nm :: rest => ParseIdentifierExpr fuel nm rest
    | Tok.tok_number s :: rest => some (ExprAST.NumberExprAST s, rest)
    | Tok.tok_char c :: rest =>
      if c = '(' then ParseParenExpr fuel rest else none
    | _ => none

/-- `ParseIdentifierExpr()`, lines 146-174, after the identifier itself has
been consumed: a following `(` starts a call argument list, anything else
leaves a plain variable reference. -/
def ParseIdentifierExpr : Nat → String → List Tok → Option (ExprAST × List Tok)
  | 0, _, _ => none
  | fuel + 1, IdName, toks =>
    match toks with
    | Tok.tok_char c :: rest =>
      if c = '(' then
        match rest with
        | Tok.tok_char d :: rest2 =>
          if d = ')' then some (ExprAST.CallExprAST IdName [], rest2)
          else ParseArgs fuel IdName [] rest
        | _ => ParseArgs fuel IdName [] rest
      else some (ExprAST.VariableExprAST IdName, toks)
    | _ => some (ExprAST.VariableExprAST IdName, toks)

/-- The `while (1)` argument loop inside `ParseIdentifierExpr`, lines
158-168: expression, then `)` ends the list, `,` continues, anything else
is the "Expected ')' or ',' in argument list" error. -/
def ParseArgs : Nat → String → List ExprAST → List Tok → Option (ExprAST × List Tok)
  | 0, _, _, _ => none
  | fuel + 1, IdName, acc, toks =>
    match ParseExpression fuel toks with
    | none => none
    | some (arg, rest) =>
      match rest with
      | Tok.tok_char c :: rest2 =>
        if c = ')' then some (ExprAST.CallExprAST IdName (acc ++ [arg]), rest2)
        else if c = ',' then ParseArgs fuel IdName (acc ++ [arg]) rest2
        else none
      | _ => none

/-- `ParseParenExpr()`, lines 182-191, after the `(` has been consumed. -/
def ParseParenExpr : Nat → List Tok → Option (ExprAST × List Tok)
  | 0, _ => none
  | fuel + 1, toks =>
    match ParseExpression fuel toks with
    | none => none
    | some (v, rest) =>
      match rest with
      | Tok.tok_char c :: rest2 => if c = ')' then some (v, rest2) else none
      | _ => none

/-- `ParseBinOpRHS(ExprPrec, LHS)`, lines 202-224: the precedence-climbing
loop, with the `while (1)` expressed as tail recursion on the updated
`LHS`. -/
def ParseBinOpRHS : Nat → Int → ExprAST → List Tok → Option (ExprAST × List Tok)
  | 0, _, _, _ => none
  | fuel + 1, ExprPrec, LHS, toks =>
    let TokPrec := GetTokPrecedence toks
    if TokPrec < ExprPrec then some (LHS, toks)
    else
      match toks with
      | Tok.tok_char BinOp :: rest =>
        match ParsePrimary fuel rest with
        | none => none
        | some (RHS, toks2) =>
          let NextPrec := GetTokPrecedence toks2
          if TokPrec < NextPrec then
            match ParseBinOpRHS fuel (TokPrec + 1) RHS toks2 with
            | none => none
            | some (RHS2, toks3) =>
              ParseBinOpRHS fuel ExprPrec (ExprAST.BinaryExprAST BinOp LHS RHS2) toks3
          else ParseBinOpRHS fuel ExprPrec (ExprAST.BinaryExprAST BinOp LHS RHS) toks2
      | _ => none

end

/-- The `while (getNextToken() == tok_identifier)` loop of
`ParsePrototype`, lines 244-245: collect leading identifier tokens. -/
def takeIdents : List Tok → List String × List Tok
  | Tok.tok_identifier s :: rest =>
    match takeIdents rest with
    | (ss, r) => (s :: ss, r)
  | toks => ([], toks)

/-- `ParsePrototype()`, lines 233-252. -/
def ParsePrototype (toks : List Tok) : Option (PrototypeAST × List Tok) :=
  match toks with
  | Tok.tok_identifier FnName :: rest =>
    match rest with
    | Tok.tok_char c :: rest2 =>
      if c = '(' then
        match takeIdents rest2 with
        | (ArgNames, rest3) =>
          match rest3 with
          | Tok.tok_char d :: rest4 =>
            if d = ')' then some (⟨FnName, ArgNames⟩, rest4) else none
          | _ => none
      else none
    | _ => none
  | _ => none

/-- `ParseDefinition()`, lines 254-262: eat the leading `def` token, then
prototype, then body expression. -/
def ParseDefinition (fuel : Nat) (toks : List Tok) : Option (FunctionAST × List Tok) :=
  match toks with
  | [] => none
  | _ :: rest =>
    match ParsePrototype rest with
    | none => none
    | some (proto, rest1) =>
      match ParseExpression fuel rest1 with
      | none => none
      | some (e, rest2) => some (⟨proto, e⟩, rest2)

/-- `ParseExtern()`, lines 272-275: eat the leading `extern` token. -/
def ParseExtern (toks : List Tok) : Option (PrototypeAST × List Tok) :=
  match toks with
  | [] => none
  | _ :: rest => ParsePrototype rest

/-- `ParseTopLevelExpr()`, lines 264-270: wrap a bare expression in an
anonymous zero-parameter function. -/
def ParseTopLevelExpr (fuel : Nat) (toks : List Tok) : Option (FunctionAST × List Tok) :=
  match ParseExpression fuel toks with
  | none => none
  | some (e, rest) => some (⟨⟨"", []⟩, e⟩, rest)

/-! ## Lowering / codegen (src/pon.cpp, lines 277-374) -/

/-- IR value handles: `ConstantFP` constants (carrying the numeral text of
the `NumberExprAST`), function arguments (the `Argument` handles `AI` of a
function, identified by function name and position), and instruction
results (numbered by position in the emission log). -/
inductive Value where
  | constFP (Val : String) : Value
  | arg (fn : String) (idx : Nat) : Value
  | instr (id : Nat) : Value
deriving DecidableEq, Repr

/-- The instructions the builder can emit (`CreateFAdd`, `CreateFSub`,
`CreateFMul`, `CreateFCmpULT`, `CreateUIToFP`, `CreateCall`,
`CreateRet`). -/
inductive Instr where
  | fadd (l r : Value) : Instr
  | fsub (l r : Value) : Instr
  | fmul (l r : Value) : Instr
  | fcmpULT (l r : Value) : Instr
  | uitofp (v : Value) : Instr
  | call (callee : String) (args : List Value) : Instr
  | ret (v : Value) : Instr
deriving DecidableEq, Repr

/-- The error taxonomy of the design, each constructor carrying the exact
C diagnostic string passed to `ErrorV`/`ErrorF` at that site. -/
inductive CGErr where
  | UndefinedSymbol (msg : String) : CGErr
  | ArityMismatch (msg : String) : CGErr
  | RedefinitionConflict (msg : String) : CGErr
  | InvalidOperator (msg : String) : CGErr
deriving DecidableEq, Repr

/-- One function of the LLVM `Module`: its name, number of parameters
(`arg_size()`), and whether it has at least one basic block
(`!F->empty()`). -/
structure FunctionIR where
  name : String
  arity : Nat
  hasBody : Bool
deriving DecidableEq, Repr

/-- The global lowering state: `TheModule`, `NamedValues`, the builder's
emission log, and the stderr error log. -/
structure CGState where
  TheModule : List FunctionIR
  NamedValues : List (String × Value)
  instrs : List Instr
  errors : List CGErr
deriving DecidableEq, Repr

def emptyCG : CGState := ⟨[], [], [], []⟩

/-- Association-list lookup (`std::map::find` / a successful
`operator[]`). -/
def mapLookup (m : List (String × Value)) (k : String) : Option Value :=
  match m with
  | [] => none
  | (k0, v0) :: rest => if k0 = k then some v0 else mapLookup rest k

/-- Association-list overwrite-insert (`NamedValues[k] = v`). -/
def mapInsert (m : List (String × Value)) (k : String) (v : Value) :
    List (String × Value) :=
  match m with
  | [] => [(k, v)]
  | (k0, v0) :: rest => if k0 = k then (k, v) :: rest else (k0, v0) :: mapInsert rest k v

/-- `TheModule->getFunction(name)`: LLVM's symbol table holds only named
values, so anonymous (empty-name) functions are never found. -/
def lookupFunction : List FunctionIR → String → Option FunctionIR
  | [], _ => none
  | f :: rest, nm =>
    if nm = "" then none
    else if f.name = nm then some f else lookupFunction rest nm

/-- `setHasBody`: the effect on the module of `BasicBlock::Create(...,
TheFunction)` — the named function stops being empty. -/
def setHasBody (m : List FunctionIR) (nm : String) : List FunctionIR :=
  m.map (fun f => if f.name = nm then { f with hasBody := true } else f)

/-- `TheFunction->eraseFromParent()`: remove the named function from the
module (named functions are unique in a module, since creation only
appends a name that `lookupFunction` does not find). -/
def eraseFunction : List FunctionIR → String → List FunctionIR
  | [], _ => []
  | f :: rest, nm =>
    if f.name = nm then eraseFunction rest nm else f :: eraseFunction rest nm

/-- Append one instruction to the builder's log and hand back its result
handle, numbered by position. -/
def emit (i : Instr) (st : CGState) : Value × CGState :=
  (Value.instr st.instrs.length, { st with instrs := st.instrs ++ [i] })

/-- `ErrorV(Str)`: log the diagnostic, produce the null value. -/
def errV (st : CGState) (e : CGErr) : Option Value × CGState :=
  (none, { st with errors := st.errors ++ [e] })

/-- `ErrorF(Str)` as used inside `PrototypeAST::Codegen`: log the
diagnostic, produce the null function. -/
def errF (st : CGState) (e : CGErr) : Option String × CGState :=
  (none, { st with errors := st.errors ++ [e] })

/-- The parameter-binding loop of `PrototypeAST::Codegen`, lines 346-350:
`for (...; Idx != Args.size(); ++AI, ++Idx) { AI->setName(Args[Idx]);
NamedValues[Args[Idx]] = AI; }`, with `i` the current `Idx`. -/
def bindParamsFrom (fn : String) (i : Nat) (Args : List String)
    (nv : List (String × Value)) : List (String × Value) :=
  match Args with
  | [] => nv
  | a :: rest => bindParamsFrom fn (i + 1) rest (mapInsert nv a (Value.arg fn i))

mutual

/-- `Codegen()` on the expression node classes, lines 283-323.  The fuel
pays for each recursive visit; any fuel exceeding the node count of the
expression suffices.  Note two C faithfulness points: in `BinaryExprAST`
BOTH operands are lowered (left then right) before the null check, and in
`CallExprAST` the argument loop stops at the first failing argument. -/
def ExprAST.Codegen : Nat → ExprAST → CGState → Option Value × CGState
  | 0, _, st => (none, st)
  | _ + 1, ExprAST.NumberExprAST v, st => (some (Value.constFP v), st)
  | _ + 1, ExprAST.VariableExprAST nm, st =>
    match mapLookup st.NamedValues nm with
    | some v => (some v, st)
    | none => errV st (CGErr.UndefinedSymbol "Unknown variable name")
  | fuel + 1, ExprAST.BinaryExprAST Op LHS RHS, st =>
    match ExprAST.Codegen fuel LHS st with
    | (L, st1) =>
      match ExprAST.Codegen fuel RHS st1 with
      | (R, st2) =>
        match L, R with
        | some L, some R =>
          if Op = '+' then
            match emit (Instr.fadd L R) st2 with
            | (v, st3) => (some v, st3)
          else if Op = '-' then
            match emit (Instr.fsub L R) st2 with
            | (v, st3) => (some v, st3)
          else if Op = '*' then
            match emit (Instr.fmul L R) st2 with
            | (v, st3) => (some v, st3)
          else if Op = '<' then
            match emit (Instr.fcmpULT L R) st2 with
            | (cmp, st3) =>
              match emit (Instr.uitofp cmp) st3 with
              | (v, st4) => (some v, st4)
          else errV st2 (CGErr.InvalidOperator "invalid binary operator")
        | _, _ => (none, st2)
  | fuel + 1, ExprAST.CallExprAST Callee Args, st =>
    match lookupFunction st.TheModule Callee with
    | none => errV st (CGErr.UndefinedSymbol "Unknown function referenced")
    | some F =>
      if F.arity ≠ Args.length then
        errV st (CGErr.ArityMismatch "Incorrect # arguments passed")
      else
        match codegenArgs fuel Args st with
        | (some vs, st1) =>
          match emit (Instr.call Callee vs) st1 with
          | (v, st2) => (some v, st2)
        | (none, st1) => (none, st1)

/-- The argument loop of `CallExprAST::Codegen`, lines 316-320. -/
def codegenArgs : Nat → List ExprAST → CGState → Option (List Value) × CGState
  | 0, _, st => (none, st)
  | _ + 1, [], st => (some [], st)
  | fuel + 1, a :: rest, st =>
    match ExprAST.Codegen fuel a st with
    | (none, st1) => (none, st1)
    | (some v, st1) =>
      match codegenArgs fuel rest st1 with
      | (some vs, st2) => (some (v :: vs), st2)
      | (none, st2) => (none, st2)

end

/-- `PrototypeAST::Codegen()`, lines 325-353, by its net effect on the
module: `Function::Create` appends a function; when the name was already
taken LLVM renames the new one, the code detects this via
`F->getName() != Name`, erases the renamed duplicate and switches to the
existing function, rejecting it if it is non-empty (has a body) or has a
different arity.  On success the parameters are bound left to right into
`NamedValues`.  The returned handle is the function's name. -/
def PrototypeAST.Codegen (p : PrototypeAST) (st : CGState) : Option String × CGState :=
  match lookupFunction st.TheModule p.Name with
  | none =>
    let st1 := { st with
      TheModule := st.TheModule ++ [FunctionIR.mk p.Name p.Args.length false] }
    (some p.Name,
     { st1 with NamedValues := bindParamsFrom p.Name 0 p.Args st1.NamedValues })
  | some F =>
    if F.hasBody then errF st (CGErr.RedefinitionConflict "redefinition of function")
    else if F.arity ≠ p.Args.length then
      errF st (CGErr.RedefinitionConflict "redefinition of function with different # args")
    else
      (some p.Name,
       { st with NamedValues := bindParamsFrom p.Name 0 p.Args st.NamedValues })

/-- `FunctionAST::Codegen()`, lines 355-374: clear `NamedValues`, lower the
prototype, create the entry basic block (making the function non-empty),
lower the body; on success emit the return and keep the function, on body
failure erase the function from the module (`eraseFromParent`).
`verifyFunction` is a well-formedness assertion with no modelled effect. -/
def FunctionAST.Codegen (fuel : Nat) (fd : FunctionAST) (st : CGState) :
    Option String × CGState :=
  let st0 := { st with NamedValues := [] }
  match PrototypeAST.Codegen fd.Proto st0 with
  | (none, st1) => (none, st1)
  | (some fname, st1) =>
    let st2 := { st1 with TheModule := setHasBody st1.TheModule fname }
    match ExprAST.Codegen fuel fd.Body st2 with
    | (some RetVal, st3) =>
      match emit (Instr.ret RetVal) st3 with
      | (_, st4) => (some fname, st4)
    | (none, st3) => (none, { st3 with TheModule := eraseFunction st3.TheModule fname })

/-- `HandleExtern()`, lines 387-396, minus the printing: parse an extern
declaration from source text and lower its prototype. -/
def runExtern (src : String) (st : CGState) : Option String × CGState :=
  match ParseExtern (tokenize src) with
  | some (p, _) => PrototypeAST.Codegen p st
  | none => (none, st)

/-- `HandleDefinition()`, lines 376-385, minus the printing: parse a
definition from source text and lower it. -/
def runDef (src : String) (st : CGState) : Option String × CGState :=
  match ParseDefinition 999 (tokenize src) with
  | some (fd, _) => FunctionAST.Codegen 999 fd st
  | none => (none, st)

/-- Position of the last (rightmost) occurrence of `nm` in a list, for
describing which binding a repeated parameter name ends up with (only
meaningful when `nm` is in the list). -/
def lastOcc (nm : String) : List String → Nat
  | [] => 0
  | _ :: rest => if nm ∈ rest then lastOcc nm rest + 1 else 0

/-- Lower a bare expression from source text against a given state (the
expression-lowering half of `HandleTopLevelExpression`, before the
anonymous-function wrapping). -/
def lowerExprSrc (src : String) (st : CGState) : Option Value × CGState :=
  match ParseExpression 999 (tokenize src) with
  | some (e, _) => ExprAST.Codegen 999 e st
  | none => (none, st)

/-! ## Helper lemmas -/

theorem mapLookup_mapInsert_self (m : List (String × Value)) (k : String) (v : Value) :
    mapLookup (mapInsert m k v) k = some v := by
  induction m with
  | nil => simp [mapInsert, mapLookup]
  | cons p rest ih =>
    obtain ⟨k0, v0⟩ := p
    by_cases h : k0 = k
    · simp [mapInsert, h, mapLookup]
    · simp [mapInsert, h, mapLookup, ih]

theorem mapLookup_mapInsert_ne (m : List (String × Value)) (k0 k : String) (v : Value)
    (h : k0 ≠ k) : mapLookup (mapInsert m k0 v) k = mapLookup m k := by
  induction m with
  | nil => simp [mapInsert, mapLookup, h]
  | cons p rest ih =>
    obtain ⟨k1, v1⟩ := p
    by_cases h1 : k1 = k0
    · subst h1
      simp [mapInsert, mapLookup, h]
    · simp [mapInsert, mapLookup, h1, ih]

theorem bindParamsFrom_mapLookup (fn : String) (Args : List String) :
    ∀ (i : Nat) (nv : List (String × Value)) (nm : String),
      mapLookup (bindParamsFrom fn i Args nv) nm
        = if nm ∈ Args then some (Value.arg fn (i + lastOcc nm Args))
          else mapLookup nv nm := by
  induction Args with
  | nil =>
    intro i nv nm
    simp [bindParamsFrom]
  | cons a rest ih =>
    intro i nv nm
    simp only [bindParamsFrom]
    rw [ih]
    by_cases hr : nm ∈ rest
    · have harith : i + 1 + lastOcc nm rest = i + (lastOcc nm rest + 1) := by omega
      simp [hr, lastOcc, List.mem_cons, harith]
    · by_cases ha : a = nm
      · subst ha
        simp [hr, lastOcc, List.mem_cons, mapLookup_mapInsert_self]
      · have hnea : ¬nm = a := fun h => ha h.symm
        simp [hr, lastOcc, List.mem_cons, hnea, mapLookup_mapInsert_ne _ _ _ _ ha]

theorem lookupFunction_eraseFunction (m : List FunctionIR) (nm : String) :
    lookupFunction (eraseFunction m nm) nm = none := by
  induction m with
  | nil =>
    simp [eraseFunction, lookupFunction]
  | cons f rest ih =>
    by_cases hf : f.name = nm
    · simpa [eraseFunction, hf] using ih
    · simp [eraseFunction, lookupFunction, hf, ih]

/-! ## The claims -/

/-- Claim C1: with the startup precedences (`<` 10, `+` 20, `-` 20, `*` 40),
the precedence-climbing parser produces `1+(2*3)` for `1+2*3`, `(1*2)+3`
for `1*2+3`, `1<(2+3)` for `1<2+3`, and parses the equal-precedence chain
`1-2-3` left-associatively as `(1-2)-3`. -/
theorem c1_parse_precedence_and_left_assoc :
    ParseExpression 99 (tokenize "1+2*3")
      = some (ExprAST.BinaryExprAST '+' (ExprAST.NumberExprAST "1")
          (ExprAST.BinaryExprAST '*' (ExprAST.NumberExprAST "2")
            (ExprAST.NumberExprAST "3")), [Tok.tok_eof]) ∧
    ParseExpression 99 (tokenize "1*2+3")
      = some (ExprAST.BinaryExprAST '+'
          (ExprAST.BinaryExprAST '*' (ExprAST.NumberExprAST "1")
            (ExprAST.NumberExprAST "2"))
          (ExprAST.NumberExprAST "3"), [Tok.tok_eof]) ∧
    ParseExpression 99 (tokenize "1<2+3")
      = some (ExprAST.BinaryExprAST '<' (ExprAST.NumberExprAST "1")
          (ExprAST.BinaryExprAST '+' (ExprAST.NumberExprAST "2")
            (ExprAST.NumberExprAST "3")), [Tok.tok_eof]) ∧
    ParseExpression 99 (tokenize "1-2-3")
      = some (ExprAST.BinaryExprAST '-'
          (ExprAST.BinaryExprAST '-' (ExprAST.NumberExprAST "1")
            (ExprAST.NumberExprAST "2"))
          (ExprAST.NumberExprAST "3"), [Tok.tok_eof]) :=
  ⟨rfl, rfl, rfl, rfl⟩

/-- Claim C8: a `#` line comment is transparent to tokenization — the input
with a trailing comment yields exactly the token sequence of the input
without it (and that sequence is the expected one). -/
theorem c8_comment_transparency :
    tokenize "1 + 2 # trailing comment\n + 3" = tokenize "1 + 2 + 3" ∧
    tokenize "1 + 2 # trailing comment\n + 3"
      = [Tok.tok_number "1", Tok.tok_char '+', Tok.tok_number "2",
         Tok.tok_char '+', Tok.tok_number "3", Tok.tok_eof] :=
  ⟨rfl, rfl⟩

/-- Claim C9: a current token that is not a key of the precedence table
with positive precedence (every non-punctuation token, every non-ASCII
character, and every punctuation character the table maps to a
non-positive value) is not consumed as an infix operator: the
precedence-climbing loop, entered with any non-negative minimum
precedence, immediately returns the expression built so far with that
token still the current token. -/
theorem c9_non_operator_stops_parse (t : Tok) (toks : List Tok) (fuel : Nat)
    (ExprPrec : Int) (LHS : ExprAST) (hp : 0 ≤ ExprPrec)
    (ht : ∀ c, t = Tok.tok_char c → BinopPrecedence c ≤ 0 ∨ 127 < c.toNat) :
    ParseBinOpRHS (fuel + 1) ExprPrec LHS (t :: toks) = some (LHS, t :: toks) := by
  have hprec : GetTokPrecedence (t :: toks) = -1 := by
    cases t with
    | tok_char c =>
      rcases ht c rfl with h | h
      · by_cases hc : 127 < c.toNat
        · simp [GetTokPrecedence, hc]
        · simp [GetTokPrecedence, hc, h]
      · simp [GetTokPrecedence, h]
    | tok_eof => rfl
    | tok_def => rfl
    | tok_extern => rfl
    | tok_identifier s => rfl
    | tok_number s => rfl
  simp only [ParseBinOpRHS, hprec]
  rw [if_pos (by omega)]

/-- Witness for C9 at a concrete input: `;` has table precedence 0, so the
loop entered at minimum precedence 0 leaves it unconsumed. -/
theorem c9_stop_witness :
    ParseBinOpRHS 1 0 (ExprAST.NumberExprAST "1") [Tok.tok_char ';']
      = some (ExprAST.NumberExprAST "1", [Tok.tok_char ';']) :=
  c9_non_operator_stops_parse (Tok.tok_char ';') [] 0 0 (ExprAST.NumberExprAST "1")
    (by decide) (by intro c h; cases h; exact Or.inl (by decide))

/-- Claim C5: `FunctionAST::Codegen` clears the local variable table on
entry, so the result of lowering a `FunctionDef` is independent of any
`NamedValues` bindings left by earlier lowerings; concretely, lowering
`def f(a) a` and then `def g(b) a` makes the second fail with
UndefinedSymbol for `a`. -/
theorem c5_local_table_isolation :
    (∀ (fuel : Nat) (fd : FunctionAST) (st : CGState),
      FunctionAST.Codegen fuel fd st
        = FunctionAST.Codegen fuel fd { st with NamedValues := [] }) ∧
    ((runDef "def g(b) a" (runDef "def f(a) a" emptyCG).2).1 = none ∧
     (runDef "def g(b) a" (runDef "def f(a) a" emptyCG).2).2.errors
       = [CGErr.UndefinedSymbol "Unknown variable name"]) :=
  ⟨fun _ _ _ => rfl, rfl, rfl⟩

/-- Claim C2: lowering a `Prototype` follows the three-way redefinition
policy — no prior entry creates a fresh bodiless entry of the prototype's
arity and succeeds; a bodiless prior entry of matching arity is reused and
the module is unchanged; a prior entry with a body or a different arity
fails with RedefinitionConflict.  Concretely, `extern foo(a)` then
`def foo(a) a*a` succeeds and marks `foo` as having a body, and a
subsequent `def foo(a) a+a` fails with RedefinitionConflict. -/
theorem c2_prototype_redefinition_policy :
    (∀ (p : PrototypeAST) (st : CGState),
      lookupFunction st.TheModule p.Name = none →
      (PrototypeAST.Codegen p st).1 = some p.Name ∧
      (PrototypeAST.Codegen p st).2.TheModule
        = st.TheModule ++ [FunctionIR.mk p.Name p.Args.length false]) ∧
    (∀ (p : PrototypeAST) (st : CGState) (F : FunctionIR),
      lookupFunction st.TheModule p.Name = some F →
      F.hasBody = false → F.arity = p.Args.length →
      (PrototypeAST.Codegen p st).1 = some p.Name ∧
      (PrototypeAST.Codegen p st).2.TheModule = st.TheModule) ∧
    (∀ (p : PrototypeAST) (st : CGState) (F : FunctionIR),
      lookupFunction st.TheModule p.Name = some F →
      F.hasBody = true ∨ F.arity ≠ p.Args.length →
      (PrototypeAST.Codegen p st).1 = none ∧
      ∃ msg, (PrototypeAST.Codegen p st).2.errors
        = st.errors ++ [CGErr.RedefinitionConflict msg]) ∧
    ((runDef "def foo(a) a*a" (runExtern "extern foo(a)" emptyCG).2).1 = some "foo" ∧
     lookupFunction
        (runDef "def foo(a) a*a" (runExtern "extern foo(a)" emptyCG).2).2.TheModule "foo"
       = some (FunctionIR.mk "foo" 1 true) ∧
     (runDef "def foo(a) a+a"
        (runDef "def foo(a) a*a" (runExtern "extern foo(a)" emptyCG).2).2).1 = none ∧
     (runDef "def foo(a) a+a"
        (runDef "def foo(a) a*a" (runExtern "extern foo(a)" emptyCG).2).2).2.errors
       = [CGErr.RedefinitionConflict "redefinition of function"]) := by
  refine ⟨?_, ?_, ?_, rfl, rfl, rfl, rfl⟩
  · intro p st h
    simp [PrototypeAST.Codegen, h]
  · intro p st F h hb ha
    simp [PrototypeAST.Codegen, h, hb, ha]
  · intro p st F h hcon
    by_cases hb : F.hasBody
    · exact ⟨by simp [PrototypeAST.Codegen, h, hb, errF],
        ⟨"redefinition of function", by simp [PrototypeAST.Codegen, h, hb, errF]⟩⟩
    · have ha : F.arity ≠ p.Args.length := by
        rcases hcon with h1 | h1
        · exact absurd h1 hb
        · exact h1
      exact ⟨by simp [PrototypeAST.Codegen, h, hb, ha, errF],
        ⟨"redefinition of function with different # args",
         by simp [PrototypeAST.Codegen, h, hb, ha, errF]⟩⟩

/-- Witness for C2 at a concrete input: a prototype for a fresh name
lowers successfully. -/
theorem c2_redefinition_witness :
    (PrototypeAST.Codegen ⟨"q", ["x"]⟩ emptyCG).1 = some "q" :=
  (c2_prototype_redefinition_policy.1 ⟨"q", ["x"]⟩ emptyCG rfl).1

/-- Claim C3: when a `FunctionDef`'s prototype lowers successfully but its
body fails to lower, the function is erased from the module and lowering
returns failure, so a later lookup of that name finds nothing. -/
theorem c3_failed_body_rollback (fuel : Nat) (fd : FunctionAST) (st : CGState)
    (fname : String) (st1 st3 : CGState)
    (hproto : PrototypeAST.Codegen fd.Proto { st with NamedValues := [] }
      = (some fname, st1))
    (hbody : ExprAST.Codegen fuel fd.Body
        { st1 with TheModule := setHasBody st1.TheModule fname } = (none, st3)) :
    FunctionAST.Codegen fuel fd st
      = (none, { st3 with TheModule := eraseFunction st3.TheModule fname }) ∧
    lookupFunction (eraseFunction st3.TheModule fname) fname = none := by
  constructor
  · simp [FunctionAST.Codegen, hproto, hbody]
  · exact lookupFunction_eraseFunction _ _

/-- Witness for C3 at a concrete input: `def h(x) y` lowers its prototype,
fails on the body, and ends with no `h` in the module. -/
theorem c3_rollback_witness :
    (FunctionAST.Codegen 9 ⟨⟨"h", ["x"]⟩, ExprAST.VariableExprAST "y"⟩ emptyCG).1
      = none := by
  have H := c3_failed_body_rollback 9 ⟨⟨"h", ["x"]⟩, ExprAST.VariableExprAST "y"⟩
    emptyCG "h"
    (CGState.mk [FunctionIR.mk "h" 1 false] [("x", Value.arg "h" 0)] [] [])
    (CGState.mk [FunctionIR.mk "h" 1 true] [("x", Value.arg "h" 0)] []
      [CGErr.UndefinedSymbol "Unknown variable name"])
    rfl rfl
  rw [H.1]

/-- Claim C4: lowering a `Call` fails with UndefinedSymbol when the callee
is not in the module, fails with ArityMismatch when the stored arity
differs from the argument count, and otherwise lowers the arguments left
to right and emits a call instruction; concretely, after
`extern foo(a b)`, lowering `foo(1)` fails with ArityMismatch while
lowering `foo(1,2)` emits a call. -/
theorem c4_call_lowering :
    (∀ (fuel : Nat) (Callee : String) (Args : List ExprAST) (st : CGState),
      lookupFunction st.TheModule Callee = none →
      ExprAST.Codegen (fuel + 1) (ExprAST.CallExprAST Callee Args) st
        = (none, { st with errors := st.errors
            ++ [CGErr.UndefinedSymbol "Unknown function referenced"] })) ∧
    (∀ (fuel : Nat) (Callee : String) (Args : List ExprAST) (st : CGState)
        (F : FunctionIR),
      lookupFunction st.TheModule Callee = some F →
      F.arity ≠ Args.length →
      ExprAST.Codegen (fuel + 1) (ExprAST.CallExprAST Callee Args) st
        = (none, { st with errors := st.errors
            ++ [CGErr.ArityMismatch "Incorrect # arguments passed"] })) ∧
    (∀ (fuel : Nat) (Callee : String) (Args : List ExprAST) (st : CGState)
        (F : FunctionIR) (vs : List Value) (st1 : CGState),
      lookupFunction st.TheModule Callee = some F →
      F.arity = Args.length →
      codegenArgs fuel Args st = (some vs, st1) →
      ExprAST.Codegen (fuel + 1) (ExprAST.CallExprAST Callee Args) st
        = (some (Value.instr st1.instrs.length),
           { st1 with instrs := st1.instrs ++ [Instr.call Callee vs] })) ∧
    ((lowerExprSrc "foo(1)" (runExtern "extern foo(a b)" emptyCG).2).1 = none ∧
     (lowerExprSrc "foo(1)" (runExtern "extern foo(a b)" emptyCG).2).2.errors
       = [CGErr.ArityMismatch "Incorrect # arguments passed"] ∧
     (lowerExprSrc "foo(1,2)" (runExtern "extern foo(a b)" emptyCG).2).1
       = some (Value.instr 0) ∧
     (lowerExprSrc "foo(1,2)" (runExtern "extern foo(a b)" emptyCG).2).2.instrs
       = [Instr.call "foo" [Value.constFP "1", Value.constFP "2"]]) := by
  refine ⟨?_, ?_, ?_, rfl, rfl, rfl, rfl⟩
  · intro fuel Callee Args st h
    simp [ExprAST.Codegen, h, errV]
  · intro fuel Callee Args st F h hn
    simp [ExprAST.Codegen, h, hn, errV]
  · intro fuel Callee Args st F vs st1 h ha hargs
    simp [ExprAST.Codegen, h, ha, hargs, emit]

/-- Witness for C4 at a concrete input: a call to an unknown function
fails with UndefinedSymbol. -/
theorem c4_call_witness :
    ExprAST.Codegen 1 (ExprAST.CallExprAST "nope" []) emptyCG
      = (none, CGState.mk [] [] []
          [CGErr.UndefinedSymbol "Unknown function referenced"]) :=
  c4_call_lowering.1 0 "nope" [] emptyCG rfl

/-- Claim C6: lowering a `VariableRef` whose name is not in the local table
fails with UndefinedSymbol, and this is a lowering-time failure:
`def bar(a) a+c` parses successfully into the expected AST and only its
lowering fails. -/
theorem c6_unknown_variable_at_lowering :
    (∀ (fuel : Nat) (nm : String) (st : CGState),
      mapLookup st.NamedValues nm = none →
      ExprAST.Codegen (fuel + 1) (ExprAST.VariableExprAST nm) st
        = (none, { st with errors := st.errors
            ++ [CGErr.UndefinedSymbol "Unknown variable name"] })) ∧
    (ParseDefinition 999 (tokenize "def bar(a) a+c")
      = some (FunctionAST.mk (PrototypeAST.mk "bar" ["a"])
          (ExprAST.BinaryExprAST '+' (ExprAST.VariableExprAST "a")
            (ExprAST.VariableExprAST "c")), [Tok.tok_eof])) ∧
    ((runDef "def bar(a) a+c" emptyCG).1 = none ∧
     (runDef "def bar(a) a+c" emptyCG).2.errors
       = [CGErr.UndefinedSymbol "Unknown variable name"]) := by
  refine ⟨?_, rfl, rfl, rfl⟩
  intro fuel nm st h
  simp [ExprAST.Codegen, h, errV]

/-- Witness for C6 at a concrete input: a variable reference with an empty
local table fails with UndefinedSymbol. -/
theorem c6_unknown_variable_witness :
    ExprAST.Codegen 1 (ExprAST.VariableExprAST "zz") emptyCG
      = (none, CGState.mk [] [] []
          [CGErr.UndefinedSymbol "Unknown variable name"]) :=
  c6_unknown_variable_at_lowering.1 0 "zz" emptyCG rfl

/-- Claim C7: lowering a `BinaryOp` lowers the left operand, then the right
operand, then dispatches on the operator: `+`, `-`, `*` emit the matching
floating-point instruction, `<` emits an unsigned-less-than comparison
followed by a widening of the boolean back to floating point, and any
other operator fails with InvalidOperator. -/
theorem c7_binary_op_lowering (fuel : Nat) (l r : ExprAST) (st : CGState)
    (L R : Value) (st1 st2 : CGState)
    (hl : ExprAST.Codegen fuel l st = (some L, st1))
    (hr : ExprAST.Codegen fuel r st1 = (some R, st2)) :
    (ExprAST.Codegen (fuel + 1) (ExprAST.BinaryExprAST '+' l r) st
       = (some (Value.instr st2.instrs.length),
          { st2 with instrs := st2.instrs ++ [Instr.fadd L R] })) ∧
    (ExprAST.Codegen (fuel + 1) (ExprAST.BinaryExprAST '-' l r) st
       = (some (Value.instr st2.instrs.length),
          { st2 with instrs := st2.instrs ++ [Instr.fsub L R] })) ∧
    (ExprAST.Codegen (fuel + 1) (ExprAST.BinaryExprAST '*' l r) st
       = (some (Value.instr st2.instrs.length),
          { st2 with instrs := st2.instrs ++ [Instr.fmul L R] })) ∧
    (ExprAST.Codegen (fuel + 1) (ExprAST.BinaryExprAST '<' l r) st
       = (some (Value.instr (st2.instrs.length + 1)),
          { st2 with instrs := st2.instrs
              ++ [Instr.fcmpULT L R, Instr.uitofp (Value.instr st2.instrs.length)] })) ∧
    (∀ Op : Char, Op ≠ '+' → Op ≠ '-' → Op ≠ '*' → Op ≠ '<' →
      ExprAST.Codegen (fuel + 1) (ExprAST.BinaryExprAST Op l r) st
        = (none, { st2 with errors := st2.errors
            ++ [CGErr.InvalidOperator "invalid binary operator"] })) := by
  refine ⟨?_, ?_, ?_, ?_, ?_⟩
  · simp [ExprAST.Codegen, hl, hr, emit]
  · simp [ExprAST.Codegen, hl, hr, emit]
  · simp [ExprAST.Codegen, hl, hr, emit]
  · simp [ExprAST.Codegen, hl, hr, emit, List.append_assoc]
  · intro Op h1 h2 h3 h4
    simp [ExprAST.Codegen, hl, hr, errV, h1, h2, h3, h4]

/-- Witness for C7 at a concrete input: `1+2` (as an already parsed
BinaryOp over number literals) emits a floating add of the two
constants. -/
theorem c7_binary_op_witness :
    ExprAST.Codegen 2 (ExprAST.BinaryExprAST '+' (ExprAST.NumberExprAST "1")
        (ExprAST.NumberExprAST "2")) emptyCG
      = (some (Value.instr 0),
         CGState.mk [] [] [Instr.fadd (Value.constFP "1") (Value.constFP "2")] []) :=
  (c7_binary_op_lowering 1 (ExprAST.NumberExprAST "1") (ExprAST.NumberExprAST "2")
    emptyCG (Value.constFP "1") (Value.constFP "2") emptyCG emptyCG rfl rfl).1

/-- Claim C10: a prototype whose parameter list repeats a name is not
rejected (for a fresh function name the lowering succeeds regardless of
duplicates); the bindings are installed left to right, so the repeated
name ends up mapped to the parameter handle of its last (rightmost)
occurrence, and a `VariableRef` to that name lowered in the resulting
state resolves to exactly that final parameter. -/
theorem c10_duplicate_param_binding (Name : String) (Args : List String)
    (st : CGState) (nm : String) (fuel : Nat)
    (hfree : lookupFunction st.TheModule Name = none) (hmem : nm ∈ Args) :
    (PrototypeAST.Codegen ⟨Name, Args⟩ st).1 = some Name ∧
    mapLookup (PrototypeAST.Codegen ⟨Name, Args⟩ st).2.NamedValues nm
      = some (Value.arg Name (lastOcc nm Args)) ∧
    ExprAST.Codegen (fuel + 1) (ExprAST.VariableExprAST nm)
        (PrototypeAST.Codegen ⟨Name, Args⟩ st).2
      = (some (Value.arg Name (lastOcc nm Args)),
         (PrototypeAST.Codegen ⟨Name, Args⟩ st).2) := by
  have h2 : mapLookup (PrototypeAST.Codegen ⟨Name, Args⟩ st).2.NamedValues nm
      = some (Value.arg Name (lastOcc nm Args)) := by
    simp [PrototypeAST.Codegen, hfree, bindParamsFrom_mapLookup, hmem]
  refine ⟨by simp [PrototypeAST.Codegen, hfree], h2, ?_⟩
  simp [ExprAST.Codegen, h2]

/-- Witness for C10 at a concrete input: in `dup(a b a)` the name `a` ends
bound to the parameter at index 2, its rightmost occurrence. -/
theorem c10_duplicate_param_witness :
    mapLookup (PrototypeAST.Codegen ⟨"dup", ["a", "b", "a"]⟩ emptyCG).2.NamedValues "a"
      = some (Value.arg "dup" 2) := by
  have H := (c10_duplicate_param_binding "dup" ["a", "b", "a"] emptyCG "a" 0 rfl
    (by decide)).2.1
  exact H

end Pon
